import Mathlib

/-!
# steps-git-clone: checkout strategies, retry and fallback

A shallow embedding of `src/git.go` and of `src/gitclone/*.go`.

* Go strings are Lean strings (sequences of Unicode code points).
* A Go `error` is an `Option GoError`; `none` is `nil`.
* Every interaction with the outside world (running a git command, calling a
  helper whose body is not part of these sources, downloading the diff) is an
  `Op`.  A `World` holds the operations performed so far together with their
  replies, and an environment `env` that gives the reply of the `i`-th
  operation.  Quantifying over `env` is quantifying over every outcome of the
  underlying commands.
* Logging (`log.Warnf`, `log.Infof`, `fmt.Println`) has no effect on control
  flow and is left out.
-/

namespace GitClone

/-! ## Errors, commands, operations -/

/-- Go error values: a plain error (`errors.New`, `fmt.Errorf`, or what a
command returned) or a parameter validation error. -/
inductive GoError where
  | plain (msg : String)
  | parameterValidation (msg : String)
deriving DecidableEq, Repr

/-- The text of an error, `err.Error()`. -/
def GoError.Error : GoError → String
  | .plain msg => msg
  | .parameterValidation msg => msg

/-- Modelled from the spec: `NewParameterValidationError` is declared outside
these sources; it builds the error kind named ParameterValidationError. -/
def NewParameterValidationError (msg : String) : GoError :=
  GoError.parameterValidation msg

/-- The structured git commands built by `Git.X(...)` / `gitCmd.X(...)`. -/
inductive Cmd where
  | reset (args : List String)
  | clean (args : List String)
  | submoduleForeach (c : Cmd)
  | fetch (args : List String)
  | checkout (arg : String)
  | merge (arg : String)
  | apply (patch : String)
  | remoteList
  | remoteAdd (name url : String)
  | log (format : String)
deriving DecidableEq, Repr

/-- Modelled from the spec: the type `fetchOptions` is declared outside these
sources; the spec gives it a depth and a tags flag.  The code under study only
passes it on. -/
structure FetchOptions where
  depth : Nat
  allTags : Bool
deriving DecidableEq, Repr

/-- Modelled from the spec: the type `fetchRef` is declared outside these
sources; the spec gives it a remote name and a ref name. -/
structure FetchRef where
  remote : String
  ref : String
deriving DecidableEq, Repr

/-- The two `fallbackRetry` implementations of `unshallow.go`. -/
inductive Fallback where
  | simpleUnshallow
  | resetUnshallow
deriving DecidableEq, Repr

/-- One interaction with the outside world.  `run` and `runForOutput` execute a
command; the others are calls of helpers whose bodies are not in these sources
(`fetch`, `fetchInitialBranch`, `mergeWithCustomRetry`,
`checkoutWithCustomRetry`, `detachHead`) or whose result comes from the network
and the file system (`getDiffFile`). -/
inductive Op where
  | run (c : Cmd)
  | runForOutput (c : Cmd)
  | getDiffFile (url : String) (pattern : String)
  | fetch (ref : Option FetchRef) (opts : FetchOptions)
  | fetchInitialBranch (ref : FetchRef) (opts : FetchOptions)
  | mergeWithCustomRetry (arg : String) (fallback : Fallback)
  | checkoutWithCustomRetry (arg : String) (fallback : Fallback)
  | detachHead
deriving DecidableEq, Repr

/-- Whether an operation is the execution of a remote-add command. -/
def Op.isRemoteAdd : Op → Bool
  | .run (.remoteAdd _ _) => true
  | _ => false

/-- Whether an operation merges: a merge command or the merge helper. -/
def Op.isMerge : Op → Bool
  | .run (.merge _) => true
  | .mergeWithCustomRetry _ _ => true
  | _ => false

/-- What an operation answers: its output and its error. -/
structure Reply where
  out : String
  err : Option GoError
deriving DecidableEq, Repr

/-- The functions of `git.go` whose calls are recorded. -/
inductive Fn where
  | autoMerge
  | manualMerge
deriving DecidableEq, Repr

/-- The state threaded through the program. -/
structure World where
  /-- the operations performed so far, oldest first, each with its reply -/
  trace : List (Op × Reply)
  /-- the calls of `autoMerge` / `manualMerge` made so far, with the argument -/
  calls : List (Fn × Bool)
  /-- the reply the `i`-th operation gets -/
  env : Nat → Reply

/-- Perform one operation: look up its reply and record both. -/
def perform (op : Op) (w : World) : Reply × World :=
  let r := w.env w.trace.length
  (r, { w with trace := w.trace ++ [(op, r)] })

/-- The operations performed between `w` and a later world `w2`. -/
def opsSince (w w2 : World) : List Op :=
  (w2.trace.drop w.trace.length).map Prod.fst

/-- The replies received between `w` and a later world `w2`. -/
def repliesSince (w w2 : World) : List Reply :=
  (w2.trace.drop w.trace.length).map Prod.snd

/-- `run(c)` / `runner.Run(c)`: execute a command, return its error. -/
def run (c : Cmd) (w : World) : Option GoError × World :=
  let (r, w2) := perform (Op.run c) w
  (r.err, w2)

/-- `runForOutput(c)` / `runner.RunForOutput(c)`: output and error. -/
def runForOutput (c : Cmd) (w : World) : (String × Option GoError) × World :=
  let (r, w2) := perform (Op.runForOutput c) w
  ((r.out, r.err), w2)

/-! ## Go library functions -/

/-- The rune test `unicode.IsSpace`: the Latin-1 spaces and the other code
points with the White_Space property. -/
def isSpace (c : Char) : Bool :=
  let n := c.toNat
  (9 ≤ n && n ≤ 13) || n == 0x20 || n == 0x85 || n == 0xA0 || n == 0x1680 ||
    (0x2000 ≤ n && n ≤ 0x200A) || n == 0x2028 || n == 0x2029 || n == 0x202F ||
    n == 0x205F || n == 0x3000

/-- The library function `strings.TrimSpace`: drop the leading and the trailing
white space. -/
def TrimSpace (s : String) : String :=
  String.mk ((s.data.dropWhile isSpace).reverse.dropWhile isSpace).reverse

/-- A string that is empty or consists only of white space. -/
def isBlank (s : String) : Bool :=
  s.data.all isSpace

/-- The library function `strings.TrimSuffix`: `s` without the trailing
`suffix`, or `s` itself when it does not end in `suffix`. -/
def TrimSuffix (s suffix : String) : String :=
  if suffix.data.isSuffixOf s.data then
    String.mk (s.data.take (s.data.length - suffix.data.length))
  else s

/-- Modelled from the spec: the retry loop `retry.Times(n).Wait(t).Try(action)`
is not part of these sources.  Per the spec it is a fixed attempt count with a
fixed wait between attempts: `tryLoop action k attempt` runs `action` with the
attempt numbers `attempt, attempt+1, ...`, at most `k` times, stops at the first
run that returns no error and otherwise returns the error of the last run. -/
def tryLoop (action : Nat → World → Option GoError × World) :
    Nat → Nat → World → Option GoError × World
  | 0, _, w => (none, w)
  | k + 1, attempt, w =>
    match action attempt w with
    | (none, w2) => (none, w2)
    | (some err, w2) =>
      if k = 0 then (some err, w2) else tryLoop action k (attempt + 1) w2

/-- Modelled from the spec: `retry.Times(count).Wait(t).Try(action)`, see
`tryLoop`; attempts are numbered from 0.  The wait is time and is left out. -/
def Try (count : Nat) (action : Nat → World → Option GoError × World)
    (w : World) : Option GoError × World :=
  tryLoop action count 0 w

/-! ## Package main: `git.go` -/

namespace Main

/-- The fields of the global `configs` read by `git.go` (the declaration is
outside these sources). -/
structure Configs where
  Commit : String
  Tag : String
  Branch : String
  BranchDest : String
  PullRequestID : String
  PullRequestURI : String
  PullRequestMergeBranch : String
  BuildURL : String
  BuildAPIToken : String
deriving DecidableEq, Repr

/-- `resetRepo` (git.go 42-56). -/
def resetRepo (w : World) : Option GoError × World :=
  match run (Cmd.reset ["--hard", "HEAD"]) w with
  | (some err, w1) => (some err, w1)
  | (none, w1) =>
    match run (Cmd.clean ["-x", "-d", "f"]) w1 with
    | (some err, w2) => (some err, w2)
    | (none, w2) =>
      match run (Cmd.submoduleForeach (Cmd.reset ["--hard", "HEAD"])) w2 with
      | (some err, w3) => (some err, w3)
      | (none, w3) => run (Cmd.submoduleForeach (Cmd.clean ["-x", "-d", "-f"])) w3

/-- `getDiffFile` (git.go 74-106): the download of
`BuildURL/diff.txt?api_token=BuildAPIToken` into a temporary file named after
`PullRequestID.diff`.  The HTTP exchange and the file system are the
environment: the reply carries the path of the written file or the error; on
every error path the source returns the empty path. -/
def getDiffFile (configs : Configs) (w : World) : (String × Option GoError) × World :=
  let url := configs.BuildURL ++ "/diff.txt?api_token=" ++ configs.BuildAPIToken
  let (r, w2) := perform (Op.getDiffFile url (configs.PullRequestID ++ ".diff")) w
  match r.err with
  | some err => (("", some err), w2)
  | none => ((r.out, none), w2)

/-- `runWithRetry` (git.go 117-131): hand to the retry loop an action that runs
`f()` once and returns its error unchanged.  `retryCount` is a constant declared
outside these sources. -/
def runWithRetry (retryCount : Nat) (f : Unit → Cmd) (w : World) : Option GoError × World :=
  Try retryCount (fun _attempt w1 =>
    let (err, w2) := run (f ()) w1
    (err, w2)) w

/-- Record that `fn` was entered with argument `fallback`. -/
def enter (fn : Fn) (fallback : Bool) (w : World) : World :=
  { w with calls := w.calls ++ [(fn, fallback)] }

mutual

/-- `autoMerge` (git.go 133-163).  `fuel` bounds the depth of the calls between
`autoMerge` and `manualMerge`; `none` means the bound was hit. -/
def autoMerge (retryCount : Nat) (configs : Configs) :
    Nat → Bool → World → Option (Option GoError × World)
  | 0, _, _ => none
  | fuel + 1, fallback, w0 =>
    let w := enter Fn.autoMerge fallback w0
    if configs.PullRequestMergeBranch ≠ "" then
      match runWithRetry retryCount (fun _ =>
          Cmd.fetch ["origin", configs.PullRequestMergeBranch ++ ":" ++
            TrimSuffix configs.PullRequestMergeBranch "/merge"]) w with
      | (some err, w1) =>
        some (some (GoError.plain ("fetch Pull Request branch failed (" ++
          configs.PullRequestMergeBranch ++ "), error: " ++ err.Error)), w1)
      | (none, w1) =>
        let arg := TrimSuffix configs.PullRequestMergeBranch "/merge"
        match run (Cmd.checkout arg) w1 with
        | (some err, w2) =>
          some (some (GoError.plain ("checkout failed (" ++ configs.BranchDest ++
            "), error: " ++ err.Error)), w2)
        | (none, w2) => some (none, w2)
    else
      match getDiffFile configs w with
      | ((patch, none), w1) =>
        match run (Cmd.checkout configs.BranchDest) w1 with
        | (some err, w2) =>
          some (some (GoError.plain ("checkout failed (" ++ configs.BranchDest ++
            "), error: " ++ err.Error)), w2)
        | (none, w2) =>
          match run (Cmd.apply patch) w2 with
          | (some err, w3) =>
            some (some (GoError.plain ("can't apply patch (" ++ patch ++
              "), error: " ++ err.Error)), w3)
          | (none, w3) => some (none, w3)
      | ((_, some _), w1) =>
        if fallback then
          match manualMerge retryCount configs fuel false w1 with
          | none => none
          | some (some err, w2) =>
            some (some (GoError.plain ("manual merge failed, error: " ++ err.Error)), w2)
          | some (none, w2) => some (none, w2)
        else
          some (some (GoError.plain
            "there is no Pull Request branch and can't download diff file"), w1)

/-- `manualMerge` (git.go 165-182). -/
def manualMerge (retryCount : Nat) (configs : Configs) :
    Nat → Bool → World → Option (Option GoError × World)
  | 0, _, _ => none
  | fuel + 1, fallback, w0 =>
    let w := enter Fn.manualMerge fallback w0
    match run (Cmd.checkout configs.BranchDest) w with
    | (some err, w1) =>
      some (some (GoError.plain ("checkout failed (" ++ configs.BranchDest ++
        "), error: " ++ err.Error)), w1)
    | (none, w1) =>
      match run (Cmd.merge configs.Commit) w1 with
      | (some err, w2) =>
        if fallback then
          match autoMerge retryCount configs fuel false w2 with
          | none => none
          | some (some err2, w3) =>
            some (some (GoError.plain ("auto merge failed, error: " ++ err2.Error)), w3)
          | some (none, w3) => some (none, w3)
        else
          some (some (GoError.plain ("merge failed (" ++ configs.Commit ++
            "), error: " ++ err.Error)), w2)
      | (none, w2) => some (none, w2)

end

end Main

/-! ## Package gitclone -/

namespace Gitclone

/-- The constant `forkRemoteName` (checkout_method_pr_manual.go 11, and again
locally at line 105 with the same value). -/
def forkRemoteName : String := "fork"

/-- Modelled from the spec: the constant `defaultRemoteName` is declared outside
these sources; the spec fetches from the remote named origin. -/
def defaultRemoteName : String := "origin"

/-- Modelled from the spec: the constant `branchRefPrefix` is declared outside
these sources; the spec's example fetches the ref refs/heads/feat for the branch
feat. -/
def branchRefPrefix : String := "refs/heads/"

/-- Modelled from the spec: the constant `retryCount` of the command runner is
declared outside these sources; the spec only says it is a process-wide fixed
count, so it is a parameter of everything that retries. -/
structure RetryPolicy where
  count : Nat
deriving DecidableEq, Repr

/-- The helper `fetch` (body outside these sources), as called with a remote and
a ref name in checkout_method_pr_manual.go. -/
def fetch (remote ref : String) (fetchOptions : FetchOptions) (w : World) :
    Option GoError × World :=
  let (r, w2) := perform (Op.fetch (some ⟨remote, ref⟩) fetchOptions) w
  (r.err, w2)

/-- The helper `fetch` (body outside these sources), as called with an optional
`*fetchRef` in checkout_method_simple.go. -/
def fetchRefOpt (fetchOptions : FetchOptions) (ref : Option FetchRef) (w : World) :
    Option GoError × World :=
  let (r, w2) := perform (Op.fetch ref fetchOptions) w
  (r.err, w2)

/-- The helper `newOriginFetchRef` (body outside these sources): a fetch ref on
the default remote. -/
def newOriginFetchRef (ref : String) : FetchRef :=
  ⟨defaultRemoteName, ref⟩

/-- The helper `fetchInitialBranch` (body outside these sources). -/
def fetchInitialBranch (remote ref : String) (fetchOptions : FetchOptions) (w : World) :
    Option GoError × World :=
  let (r, w2) := perform (Op.fetchInitialBranch ⟨remote, ref⟩ fetchOptions) w
  (r.err, w2)

/-- The helper `mergeWithCustomRetry` (body outside these sources). -/
def mergeWithCustomRetry (arg : String) (fallback : Fallback) (w : World) :
    Option GoError × World :=
  let (r, w2) := perform (Op.mergeWithCustomRetry arg fallback) w
  (r.err, w2)

/-- The helper `checkoutWithCustomRetry` (body outside these sources). -/
def checkoutWithCustomRetry (arg : String) (fallback : Fallback) (w : World) :
    Option GoError × World :=
  let (r, w2) := perform (Op.checkoutWithCustomRetry arg fallback) w
  (r.err, w2)

/-- The helper `detachHead` (body outside these sources). -/
def detachHead (w : World) : Option GoError × World :=
  let (r, w2) := perform Op.detachHead w
  (r.err, w2)

/-- The value `simpleUnshallowFunc` (declared outside these sources): the simple
unshallow fallback. -/
def simpleUnshallowFunc : Fallback := Fallback.simpleUnshallow

/-- Modelled from the spec: `runner.RunWithRetry` is declared outside these
sources; per the spec it wraps `run` in the retry policy. -/
def runnerRunWithRetry (policy : RetryPolicy) (c : Cmd) (w : World) :
    Option GoError × World :=
  Try policy.count (fun _attempt w1 => run c w1) w

/-- `PRManualMergeParams` (checkout_method_pr_manual.go 15-20). -/
structure PRManualMergeParams where
  HeadBranch : String
  Commit : String
  BaseBranch : String
deriving DecidableEq, Repr

/-- `NewPRManualMergeParams` (checkout_method_pr_manual.go 23-39). -/
def NewPRManualMergeParams (headBranch commit baseBranch : String) :
    Option PRManualMergeParams × Option GoError :=
  if TrimSpace headBranch = "" then
    (none, some (NewParameterValidationError
      "manual PR merge checkout strategy can not be used: no head branch specified"))
  else if TrimSpace commit = "" then
    (none, some (NewParameterValidationError
      "manual PR merge checkout strategy can not be used: no head branch commit hash specified"))
  else if TrimSpace baseBranch = "" then
    (none, some (NewParameterValidationError
      "manual PR merge checkout strategy can not be used: no base branch specified"))
  else
    (some { HeadBranch := headBranch, Commit := commit, BaseBranch := baseBranch }, none)

/-- `ForkPRManualMergeParams` (checkout_method_pr_manual.go 67-72). -/
structure ForkPRManualMergeParams where
  HeadBranch : String
  HeadRepoURL : String
  BaseBranch : String
deriving DecidableEq, Repr

/-- `NewForkPRManualMergeParams` (checkout_method_pr_manual.go 75-91). -/
def NewForkPRManualMergeParams (headBranch forkRepoURL baseBranch : String) :
    Option ForkPRManualMergeParams × Option GoError :=
  if TrimSpace headBranch = "" then
    (none, some (NewParameterValidationError
      "manual PR (fork) merge checkout strategy can not be used: no head branch specified"))
  else if TrimSpace forkRepoURL = "" then
    (none, some (NewParameterValidationError
      "manual PR (fork) merge chekout strategy can not be used: no base repository URL specified"))
  else if TrimSpace baseBranch = "" then
    (none, some (NewParameterValidationError
      "manual PR (fork) merge checkout strategy can not be used: no base branch specified"))
  else
    (some { HeadBranch := headBranch, HeadRepoURL := forkRepoURL, BaseBranch := baseBranch },
      none)

/-- `manualMergeParams` (checkout_method_pr_manual.go 119-126). -/
structure manualMergeParams where
  MergeArg : String
  HeadBranch : String
  HeadRepoURL : String
  BaseBranch : String
deriving DecidableEq, Repr

/-- `manualMerge` (checkout_method_pr_manual.go 128-155).  The error of the
`log` command is only logged. -/
def manualMerge (fetchOptions : FetchOptions) (fallback : Fallback)
    (params : manualMergeParams) (w : World) : Option GoError × World :=
  let (_commitHash, w1) := runForOutput (Cmd.log "%H") w
  let (remote, addErr, w2) :=
    if params.HeadRepoURL ≠ "" then
      let (err, w2) := run (Cmd.remoteAdd forkRemoteName params.HeadRepoURL) w1
      (forkRemoteName, err, w2)
    else
      (defaultRemoteName, none, w1)
  match addErr with
  | some err =>
    (some (GoError.plain ("adding remote fork repository failed (" ++
      params.HeadRepoURL ++ "): " ++ err.Error)), w2)
  | none =>
    let forkBranchRef := branchRefPrefix ++ params.HeadBranch
    match fetch remote forkBranchRef fetchOptions w2 with
    | (some err, w3) => (some err, w3)
    | (none, w3) =>
      match mergeWithCustomRetry params.MergeArg fallback w3 with
      | (some err, w4) => (some err, w4)
      | (none, w4) => (none, w4)

/-- The method `checkoutPRManualMerge.do` (checkout_method_pr_manual.go 46-63). -/
def checkoutPRManualMerge_do (params : PRManualMergeParams) (fetchOptions : FetchOptions)
    (fallback : Fallback) (w : World) : Option GoError × World :=
  let baseBranchRef := branchRefPrefix ++ params.BaseBranch
  match fetchInitialBranch defaultRemoteName baseBranchRef fetchOptions w with
  | (some err, w1) => (some err, w1)
  | (none, w1) =>
    match manualMerge fetchOptions fallback
        { HeadBranch := params.HeadBranch, HeadRepoURL := "",
          BaseBranch := params.BaseBranch, MergeArg := params.Commit } w1 with
    | (some err, w2) => (some err, w2)
    | (none, w2) => detachHead w2

/-- The method `checkoutForkPRManualMerge.do`
(checkout_method_pr_manual.go 98-117). -/
def checkoutForkPRManualMerge_do (params : ForkPRManualMergeParams)
    (fetchOptions : FetchOptions) (fallback : Fallback) (w : World) :
    Option GoError × World :=
  let baseBranchRef := branchRefPrefix ++ params.BaseBranch
  match fetchInitialBranch defaultRemoteName baseBranchRef fetchOptions w with
  | (some err, w1) => (some err, w1)
  | (none, w1) =>
    let forkRemoteName := "fork"
    let remoteForkBranch := forkRemoteName ++ "/" ++ params.HeadBranch
    match manualMerge fetchOptions fallback
        { HeadBranch := params.HeadBranch, HeadRepoURL := params.HeadRepoURL,
          BaseBranch := params.BaseBranch, MergeArg := remoteForkBranch } w1 with
    | (some err, w2) => (some err, w2)
    | (none, w2) => detachHead w2

/-- Modelled from the spec: the type `CommitParams` is declared outside these
sources; the code reads its field `Commit`, the commit hash. -/
structure CommitParams where
  Commit : String
deriving DecidableEq, Repr

/-- The method `checkoutCommit.Validate` (checkout_method_simple.go 24-30). -/
def checkoutCommit_Validate (params : CommitParams) : Option GoError :=
  if TrimSpace params.Commit = "" then
    some (GoError.plain "no commit hash specified")
  else
    none

/-- The method `checkoutCommit.do` (checkout_method_simple.go 32-44). -/
def checkoutCommit_do (params : CommitParams) (fetchOptions : FetchOptions) (w : World) :
    Option GoError × World :=
  match fetchRefOpt fetchOptions none w with
  | (some err, w1) => (some err, w1)
  | (none, w1) =>
    match checkoutWithCustomRetry params.Commit simpleUnshallowFunc w1 with
    | (some err, w2) => (some err, w2)
    | (none, w2) => (none, w2)

/-- Modelled from the spec: the type `TagParams` is declared outside these
sources; the code reads its fields `Tag` and `Branch`, the latter a `*string`
that is nil when no source branch is given. -/
structure TagParams where
  Tag : String
  Branch : Option String
deriving DecidableEq, Repr

/-- The method `checkoutTag.do` (checkout_method_simple.go 67-82). -/
def checkoutTag_do (params : TagParams) (fetchOptions : FetchOptions) (w : World) :
    Option GoError × World :=
  let branchRef : Option FetchRef :=
    match params.Branch with
    | some b => some (newOriginFetchRef (branchRefPrefix ++ b))
    | none => none
  match fetchRefOpt fetchOptions branchRef w with
  | (some err, w1) => (some err, w1)
  | (none, w1) =>
    match checkoutWithCustomRetry params.Tag simpleUnshallowFunc w1 with
    | (some err, w2) => (some err, w2)
    | (none, w2) => (none, w2)

/-- The method `simpleUnshallow.do` (unshallow.go 16-24). -/
def simpleUnshallow_do (policy : RetryPolicy) (w : World) : Option GoError × World :=
  match runnerRunWithRetry policy (Cmd.fetch ["--unshallow"]) w with
  | (some err, w1) => (some (GoError.plain ("fetch failed: " ++ err.Error)), w1)
  | (none, w1) => (none, w1)

/-- The method `resetUnshallow.do` (unshallow.go 28-39).  Its `resetRepo` is the
one of git.go, the only one in these sources. -/
def resetUnshallow_do (policy : RetryPolicy) (w : World) : Option GoError × World :=
  match Main.resetRepo w with
  | (some err, w1) => (some (GoError.plain ("reset repository: " ++ err.Error)), w1)
  | (none, w1) =>
    match runnerRunWithRetry policy (Cmd.fetch ["--unshallow"]) w1 with
    | (some err, w2) => (some (GoError.plain ("fetch failed: " ++ err.Error)), w2)
    | (none, w2) => (none, w2)

end Gitclone

/-! ## Concrete inputs used in the examples -/

/-- A pull request build with a merge-branch ref. -/
def Main.prWithMergeRef : Main.Configs :=
  { Commit := "abc123", Tag := "", Branch := "feat", BranchDest := "main",
    PullRequestID := "1", PullRequestURI := "", PullRequestMergeBranch := "refs/pull/1/merge",
    BuildURL := "https://ci.example/build/7", BuildAPIToken := "tok" }

/-- A pull request build without a merge-branch ref. -/
def Main.prWithoutMergeRef : Main.Configs :=
  { Commit := "abc123", Tag := "", Branch := "feat", BranchDest := "main",
    PullRequestID := "1", PullRequestURI := "", PullRequestMergeBranch := "",
    BuildURL := "https://ci.example/build/7", BuildAPIToken := "tok" }


/-- The environment in which every operation succeeds with empty output. -/
def envOk : Nat → Reply := fun _ => ⟨"", none⟩

/-- The environment in which exactly the operations numbered in `bad` fail. -/
def envFailAt (bad : List Nat) : Nat → Reply := fun i =>
  if i ∈ bad then ⟨"", some (GoError.plain "exit status 1")⟩ else ⟨"", none⟩

/-- The empty world over an environment. -/
def World.start (env : Nat → Reply) : World :=
  { trace := [], calls := [], env := env }

end GitClone

/-! # Theorems -/

namespace GitClone

/-! ## The world after one operation -/

@[simp] theorem perform_reply (op : Op) (w : World) :
    (perform op w).1 = w.env w.trace.length := rfl

@[simp] theorem perform_trace (op : Op) (w : World) :
    (perform op w).2.trace = w.trace ++ [(op, w.env w.trace.length)] := rfl

@[simp] theorem perform_env (op : Op) (w : World) : (perform op w).2.env = w.env := rfl

@[simp] theorem perform_calls (op : Op) (w : World) : (perform op w).2.calls = w.calls := rfl

theorem opsSince_append (w w2 : World) (new : List (Op × Reply))
    (h : w2.trace = w.trace ++ new) : opsSince w w2 = new.map Prod.fst := by
  simp [opsSince, h]

theorem opsSince_perform (op : Op) (w w1 : World) (h : w.trace.length ≤ w1.trace.length) :
    opsSince w (perform op w1).2 = opsSince w w1 ++ [op] := by
  simp [opsSince, List.drop_append_of_le_length h]

namespace Gitclone

theorem manualMerge_trace (fetchOptions : FetchOptions) (fallback : Fallback)
    (params : manualMergeParams) (w : World) :
    ∃ new, (manualMerge fetchOptions fallback params w).2.trace = w.trace ++ new ∧
      Op.detachHead ∉ new.map Prod.fst := by
  unfold manualMerge
  simp only [runForOutput, run, fetch, mergeWithCustomRetry]
  split_ifs with h <;>
    cases h1 : (w.env (w.trace.length + 1)).err <;>
    cases h2 : (w.env (w.trace.length + 1 + 1)).err <;>
    cases h3 : (w.env (w.trace.length + 1 + 1 + 1)).err <;>
    simp [h1, h2, h3]

theorem fetchInitialBranch_trace (remote ref : String) (fetchOptions : FetchOptions)
    (w : World) :
    ∃ new, (fetchInitialBranch remote ref fetchOptions w).2.trace = w.trace ++ new ∧
      Op.detachHead ∉ new.map Prod.fst := by
  refine ⟨[(Op.fetchInitialBranch ⟨remote, ref⟩ fetchOptions, w.env w.trace.length)], rfl, ?_⟩
  simp

/-- The shape shared by the two `do` methods: `first`, then `second`, then
`detachHead`, returning at the first error. -/
theorem first_second_detach (first second : World → Option GoError × World) (w : World)
    (hfirst : ∃ new, (first w).2.trace = w.trace ++ new ∧ Op.detachHead ∉ new.map Prod.fst)
    (hsecond : ∃ new, (second (first w).2).2.trace = (first w).2.trace ++ new ∧
      Op.detachHead ∉ new.map Prod.fst)
    (res : Option GoError × World)
    (hres : res = match first w with
      | (some err, w1) => (some err, w1)
      | (none, w1) =>
        match second w1 with
        | (some err, w2) => (some err, w2)
        | (none, w2) => detachHead w2) :
    (res.1 = none →
      ∃ rep, res.2.trace.getLast? = some (Op.detachHead, rep) ∧ rep.err = none) ∧
    ((first w).1 = none → (second (first w).2).1 = none →
      res = detachHead (second (first w).2).2) ∧
    (∀ e, (first w).1 = some e →
      res = (some e, (first w).2) ∧ Op.detachHead ∉ opsSince w res.2) ∧
    (∀ e, (first w).1 = none → (second (first w).2).1 = some e →
      res = (some e, (second (first w).2).2) ∧ Op.detachHead ∉ opsSince w res.2) := by
  obtain ⟨n1, h1, hn1⟩ := hfirst
  obtain ⟨n2, h2, hn2⟩ := hsecond
  rcases hf : first w with ⟨_ | e1, w1⟩
  · rw [hf] at h1 h2
    rcases hs : second w1 with ⟨_ | e2, w2⟩
    · rw [hs] at h2
      simp only [hf, hs] at hres
      dsimp only at h1 h2 ⊢
      subst hres
      refine ⟨fun h => ⟨w2.env w2.trace.length, ?_, h⟩, fun _ _ => rfl, ?_, ?_⟩
      · simp [detachHead]
      · intro e h; cases h
      · intro e _ h; cases h
    · rw [hs] at h2
      simp only [hf, hs] at hres
      dsimp only at h1 h2 ⊢
      subst hres
      refine ⟨fun h => (by cases h), fun _ h => (by cases h), ?_, ?_⟩
      · intro e h; cases h
      · intro e _ h
        cases h
        refine ⟨rfl, ?_⟩
        have : w2.trace = w.trace ++ (n1 ++ n2) := by simp [h2, h1]
        rw [opsSince_append w w2 _ this]
        simp only [List.map_append, List.mem_append, not_or]
        exact ⟨hn1, hn2⟩
  · rw [hf] at h1
    simp only [hf] at hres
    dsimp only at h1 ⊢
    subst hres
    refine ⟨fun h => (by cases h), fun h => (by cases h), ?_, ?_⟩
    · intro e h
      cases h
      refine ⟨rfl, ?_⟩
      rw [opsSince_append w w1 _ h1]
      exact hn1
    · intro e h; cases h

/-- C1: for `checkoutPRManualMerge.do` and `checkoutForkPRManualMerge.do`, for
all parameters and every environment: a run without error ends with a
`detachHead` that returned no error; when the initial base-branch fetch and
`manualMerge` both succeed the result is `detachHead`'s result; when one of the
two fails, `do` returns that step's error in the world that step left, and no
`detachHead` was performed. -/
theorem do_ends_with_detachHead (fetchOptions : FetchOptions) (fallback : Fallback)
    (w : World) :
    (∀ params : PRManualMergeParams,
      let first := fetchInitialBranch defaultRemoteName
        (branchRefPrefix ++ params.BaseBranch) fetchOptions w
      let second := manualMerge fetchOptions fallback
        { HeadBranch := params.HeadBranch, HeadRepoURL := "",
          BaseBranch := params.BaseBranch, MergeArg := params.Commit } first.2
      let res := checkoutPRManualMerge_do params fetchOptions fallback w
      (res.1 = none →
        ∃ rep, res.2.trace.getLast? = some (Op.detachHead, rep) ∧ rep.err = none) ∧
      (first.1 = none → second.1 = none → res = detachHead second.2) ∧
      (∀ e, first.1 = some e →
        res = (some e, first.2) ∧ Op.detachHead ∉ opsSince w res.2) ∧
      (∀ e, first.1 = none → second.1 = some e →
        res = (some e, second.2) ∧ Op.detachHead ∉ opsSince w res.2)) ∧
    (∀ params : ForkPRManualMergeParams,
      let first := fetchInitialBranch defaultRemoteName
        (branchRefPrefix ++ params.BaseBranch) fetchOptions w
      let second := manualMerge fetchOptions fallback
        { HeadBranch := params.HeadBranch, HeadRepoURL := params.HeadRepoURL,
          BaseBranch := params.BaseBranch,
          MergeArg := "fork" ++ "/" ++ params.HeadBranch } first.2
      let res := checkoutForkPRManualMerge_do params fetchOptions fallback w
      (res.1 = none →
        ∃ rep, res.2.trace.getLast? = some (Op.detachHead, rep) ∧ rep.err = none) ∧
      (first.1 = none → second.1 = none → res = detachHead second.2) ∧
      (∀ e, first.1 = some e →
        res = (some e, first.2) ∧ Op.detachHead ∉ opsSince w res.2) ∧
      (∀ e, first.1 = none → second.1 = some e →
        res = (some e, second.2) ∧ Op.detachHead ∉ opsSince w res.2)) := by
  constructor
  · intro params
    exact first_second_detach _ _ w (fetchInitialBranch_trace _ _ _ w)
      (manualMerge_trace _ _ _ _) _ rfl
  · intro params
    exact first_second_detach _ _ w (fetchInitialBranch_trace _ _ _ w)
      (manualMerge_trace _ _ _ _) _ rfl

/-- Witness for C1: with every operation succeeding, the manual merge of a pull
request returns no error and its last operation is a successful `detachHead`. -/
theorem do_ends_with_detachHead_witness :
    (checkoutPRManualMerge_do ⟨"feat", "abc123", "main"⟩ ⟨1, false⟩
        Fallback.resetUnshallow (World.start envOk)).1 = none ∧
      ∃ rep, (checkoutPRManualMerge_do ⟨"feat", "abc123", "main"⟩ ⟨1, false⟩
          Fallback.resetUnshallow (World.start envOk)).2.trace.getLast?
        = some (Op.detachHead, rep) ∧ rep.err = none :=
  ⟨by decide,
    ((do_ends_with_detachHead ⟨1, false⟩ Fallback.resetUnshallow (World.start envOk)).1
      ⟨"feat", "abc123", "main"⟩).1 (by decide)⟩

/-- C2: for a fork pull request with a non-empty `HeadRepoURL`, in every
environment, the operations of `checkoutForkPRManualMerge.do` are an initial
part of: initial fetch of the base branch, `log`, `remote add fork HeadRepoURL`,
fetch of `refs/heads/HeadBranch` from `fork`, merge of `fork/HeadBranch`,
`detachHead`; a run without error performs all of them.  So at most one
remote-add is issued, exactly one on success, always with the arguments
`("fork", HeadRepoURL)`; and when the remote-add fails, `do` returns an error and
stops right there: no head fetch, no merge. -/
theorem fork_remote_added_once (params : ForkPRManualMergeParams)
    (fetchOptions : FetchOptions) (fallback : Fallback) (w : World)
    (hurl : params.HeadRepoURL ≠ "") :
    let res := checkoutForkPRManualMerge_do params fetchOptions fallback w
    let full : List Op :=
      [Op.fetchInitialBranch ⟨"origin", "refs/heads/" ++ params.BaseBranch⟩ fetchOptions,
       Op.runForOutput (Cmd.log "%H"),
       Op.run (Cmd.remoteAdd "fork" params.HeadRepoURL),
       Op.fetch (some ⟨"fork", "refs/heads/" ++ params.HeadBranch⟩) fetchOptions,
       Op.mergeWithCustomRetry ("fork/" ++ params.HeadBranch) fallback,
       Op.detachHead]
    opsSince w res.2 <+: full ∧
    (res.1 = none → opsSince w res.2 = full) ∧
    ((opsSince w res.2).countP Op.isRemoteAdd ≤ 1) ∧
    (res.1 = none → (opsSince w res.2).countP Op.isRemoteAdd = 1) ∧
    (∀ n u, Op.run (Cmd.remoteAdd n u) ∈ opsSince w res.2 →
      n = "fork" ∧ u = params.HeadRepoURL) ∧
    (∀ rep, (Op.run (Cmd.remoteAdd "fork" params.HeadRepoURL), rep) ∈
        res.2.trace.drop w.trace.length → rep.err ≠ none →
      res.1 ≠ none ∧ opsSince w res.2 = full.take 3) := by
  simp only [checkoutForkPRManualMerge_do, manualMerge, fetchInitialBranch, runForOutput, run,
    fetch, mergeWithCustomRetry, detachHead, hurl, opsSince, forkRemoteName, defaultRemoteName,
    branchRefPrefix]
  cases h0 : (w.env w.trace.length).err <;>
    cases h2 : (w.env (w.trace.length + 1 + 1)).err <;>
    cases h3 : (w.env (w.trace.length + 1 + 1 + 1)).err <;>
    cases h4 : (w.env (w.trace.length + 1 + 1 + 1 + 1)).err <;>
    cases h5 : (w.env (w.trace.length + 1 + 1 + 1 + 1 + 1)).err <;>
    simp [h0, h2, h3, h4, h5, Op.isRemoteAdd, hurl]

/-- Witness for C2: the fork pull request of the spec's example, every operation
succeeding: base fetch, log, remote add `fork`, fetch `fork refs/heads/feat`,
merge `fork/feat`, detach. -/
theorem fork_remote_added_once_witness :
    opsSince (World.start envOk)
      (checkoutForkPRManualMerge_do ⟨"feat", "https://x/y.git", "main"⟩ ⟨1, false⟩
        Fallback.resetUnshallow (World.start envOk)).2 =
      [Op.fetchInitialBranch ⟨"origin", "refs/heads/main"⟩ ⟨1, false⟩,
       Op.runForOutput (Cmd.log "%H"),
       Op.run (Cmd.remoteAdd "fork" "https://x/y.git"),
       Op.fetch (some ⟨"fork", "refs/heads/feat"⟩) ⟨1, false⟩,
       Op.mergeWithCustomRetry "fork/feat" Fallback.resetUnshallow,
       Op.detachHead] :=
  (fork_remote_added_once ⟨"feat", "https://x/y.git", "main"⟩ ⟨1, false⟩
    Fallback.resetUnshallow (World.start envOk) (by decide)).2.1 (by decide)

end Gitclone

/-! ## White space -/

theorem dropWhile_all_iff (p : Char → Bool) (l : List Char) :
    (∀ x ∈ l.dropWhile p, p x = true) ↔ ∀ x ∈ l, p x = true := by
  induction l with
  | nil => simp
  | cons a t ih =>
    by_cases ha : p a = true
    · simp [List.dropWhile_cons, ha, ih]
    · simp only [List.dropWhile_cons, ha, Bool.false_eq_true, if_false]

theorem TrimSpace_eq_empty_iff (s : String) : TrimSpace s = "" ↔ isBlank s = true := by
  unfold TrimSpace isBlank
  rw [String.ext_iff]
  show ((s.data.dropWhile isSpace).reverse.dropWhile isSpace).reverse = [] ↔ _
  rw [List.reverse_eq_nil_iff, List.dropWhile_eq_nil_iff]
  simp only [List.mem_reverse, List.all_eq_true]
  exact dropWhile_all_iff isSpace s.data

namespace Gitclone

/-- C6: each of `NewPRManualMergeParams` and `NewForkPRManualMergeParams` returns
a parameter validation error and no value exactly when one of its three
arguments is empty or only white space; otherwise it returns no error and the
value whose fields are the three arguments as given. -/
theorem constructors_reject_blank (a b c : String) :
    ((isBlank a = true ∨ isBlank b = true ∨ isBlank c = true ↔
        ∃ msg, NewPRManualMergeParams a b c =
          (none, some (GoError.parameterValidation msg))) ∧
      (¬ (isBlank a = true ∨ isBlank b = true ∨ isBlank c = true) →
        NewPRManualMergeParams a b c =
          (some { HeadBranch := a, Commit := b, BaseBranch := c }, none))) ∧
    ((isBlank a = true ∨ isBlank b = true ∨ isBlank c = true ↔
        ∃ msg, NewForkPRManualMergeParams a b c =
          (none, some (GoError.parameterValidation msg))) ∧
      (¬ (isBlank a = true ∨ isBlank b = true ∨ isBlank c = true) →
        NewForkPRManualMergeParams a b c =
          (some { HeadBranch := a, HeadRepoURL := b, BaseBranch := c }, none))) := by
  unfold NewPRManualMergeParams NewForkPRManualMergeParams NewParameterValidationError
  simp only [TrimSpace_eq_empty_iff]
  by_cases ha : isBlank a = true <;> by_cases hb : isBlank b = true <;>
    by_cases hc : isBlank c = true <;> simp [ha, hb, hc]

/-- C7, as stated, fails: for the empty commit hash `Validate` returns a plain
error, not a parameter validation error, and `do` does not return it: with every
command succeeding `do` returns no error after a fetch and a checkout of the
empty hash. -/
theorem checkoutCommit_empty_hash_still_runs :
    checkoutCommit_Validate ⟨""⟩ = some (GoError.plain "no commit hash specified") ∧
    (checkoutCommit_do ⟨""⟩ ⟨1, false⟩ (World.start envOk)).1 = none ∧
    opsSince (World.start envOk) (checkoutCommit_do ⟨""⟩ ⟨1, false⟩ (World.start envOk)).2 =
      [Op.fetch none ⟨1, false⟩, Op.checkoutWithCustomRetry "" Fallback.simpleUnshallow] := by
  decide

/-- C7, amended: `Validate` returns an error when the commit hash is empty or
only white space and no error otherwise; `do` does not validate: for every commit hash it performs the fetch without a ref
and, only if that succeeded, the checkout of the hash with the simple unshallow
fallback, and returns the error of the last operation it performed. -/
theorem checkoutCommit_validate_and_do (params : CommitParams)
    (fetchOptions : FetchOptions) (w : World) :
    (isBlank params.Commit = true → checkoutCommit_Validate params ≠ none) ∧
    (isBlank params.Commit = false → checkoutCommit_Validate params = none) ∧
    (let res := checkoutCommit_do params fetchOptions w
     let fetchErr := (w.env w.trace.length).err
     let checkoutErr := (w.env (w.trace.length + 1)).err
     (fetchErr ≠ none →
        res.1 = fetchErr ∧ opsSince w res.2 = [Op.fetch none fetchOptions]) ∧
     (fetchErr = none →
        res.1 = checkoutErr ∧
        opsSince w res.2 =
          [Op.fetch none fetchOptions,
           Op.checkoutWithCustomRetry params.Commit Fallback.simpleUnshallow])) := by
  refine ⟨?_, ?_, ?_⟩
  · intro h
    simp [checkoutCommit_Validate, TrimSpace_eq_empty_iff, h]
  · intro h
    simp [checkoutCommit_Validate, TrimSpace_eq_empty_iff, h]
  · simp only [checkoutCommit_do, fetchRefOpt, checkoutWithCustomRetry, simpleUnshallowFunc,
      opsSince]
    cases h0 : (w.env w.trace.length).err <;>
      cases h1 : (w.env (w.trace.length + 1)).err <;> simp [h0, h1]

/-- C8, as stated, fails: for the tag v1.0 with source branch main, every
operation succeeding, `do` performs one fetch, of the branch ref, and then the
checkout: no fetch of the tag comes between them; and without a source branch
the fetch is not skipped but performed without a ref. -/
theorem checkoutTag_no_tag_fetch :
    opsSince (World.start envOk)
        (checkoutTag_do ⟨"v1.0", some "main"⟩ ⟨1, false⟩ (World.start envOk)).2 =
      [Op.fetch (some ⟨"origin", "refs/heads/main"⟩) ⟨1, false⟩,
       Op.checkoutWithCustomRetry "v1.0" Fallback.simpleUnshallow] ∧
    opsSince (World.start envOk)
        (checkoutTag_do ⟨"v1.0", none⟩ ⟨1, false⟩ (World.start envOk)).2 =
      [Op.fetch none ⟨1, false⟩,
       Op.checkoutWithCustomRetry "v1.0" Fallback.simpleUnshallow] := by
  decide

/-- C8, amended: `checkoutTag.do` performs exactly one fetch, of
`refs/heads/Branch` from origin when a source branch is given and without a ref
when none is given, and then, only if that fetch succeeded, the checkout of
exactly the tag name with the simple unshallow fallback; it returns the error of
the last operation it performed, so a failed fetch is returned and no checkout
is attempted. -/
theorem checkoutTag_fetch_then_checkout (params : TagParams)
    (fetchOptions : FetchOptions) (w : World) :
    let ref := params.Branch.map (fun b => FetchRef.mk "origin" ("refs/heads/" ++ b))
    let res := checkoutTag_do params fetchOptions w
    let fetchErr := (w.env w.trace.length).err
    let checkoutErr := (w.env (w.trace.length + 1)).err
    (fetchErr ≠ none →
      res.1 = fetchErr ∧ opsSince w res.2 = [Op.fetch ref fetchOptions]) ∧
    (fetchErr = none →
      res.1 = checkoutErr ∧
      opsSince w res.2 =
        [Op.fetch ref fetchOptions,
         Op.checkoutWithCustomRetry params.Tag Fallback.simpleUnshallow]) := by
  simp only [checkoutTag_do, fetchRefOpt, checkoutWithCustomRetry, simpleUnshallowFunc,
    opsSince, newOriginFetchRef, defaultRemoteName, branchRefPrefix]
  cases hb : params.Branch <;>
    cases h0 : (w.env w.trace.length).err <;>
    cases h1 : (w.env (w.trace.length + 1)).err <;> simp [h0, h1]

/-- C9, the code at the failing input: with every command succeeding,
`resetUnshallow.do` runs the four commands of `resetRepo` and then the fetch
that `simpleUnshallow.do` runs alone; the second command is `clean -x -d f`,
whose last argument is `f` and not the flag `-f` that the clean inside the
submodules gets. -/
theorem resetRepo_clean_without_force_flag :
    opsSince (World.start envOk) (resetUnshallow_do ⟨3⟩ (World.start envOk)).2 =
      [Op.run (Cmd.reset ["--hard", "HEAD"]),
       Op.run (Cmd.clean ["-x", "-d", "f"]),
       Op.run (Cmd.submoduleForeach (Cmd.reset ["--hard", "HEAD"])),
       Op.run (Cmd.submoduleForeach (Cmd.clean ["-x", "-d", "-f"])),
       Op.run (Cmd.fetch ["--unshallow"])] ∧
    opsSince (World.start envOk) (simpleUnshallow_do ⟨3⟩ (World.start envOk)).2 =
      [Op.run (Cmd.fetch ["--unshallow"])] ∧
    Cmd.clean ["-x", "-d", "f"] ≠ Cmd.clean ["-x", "-d", "-f"] := by
  decide

end Gitclone

/-! ## The retry loop -/

/-- The trace a world gets from `k` runs of the command `c`. -/
theorem tryLoop_run (c : Cmd) (act : Nat → World → Option GoError × World)
    (hact : ∀ a w, act a w = run c w) :
    ∀ (n a : Nat) (w : World), ∃ k, k ≤ n ∧ (1 ≤ n → 1 ≤ k) ∧
      (tryLoop act n a w).2.trace =
        w.trace ++ (List.range k).map (fun i => (Op.run c, w.env (w.trace.length + i))) ∧
      (tryLoop act n a w).2.env = w.env ∧
      (tryLoop act n a w).2.calls = w.calls ∧
      (∀ i, i + 1 < k → (w.env (w.trace.length + i)).err ≠ none) ∧
      (tryLoop act n a w).1 = (if k = 0 then none else (w.env (w.trace.length + (k - 1))).err) ∧
      ((tryLoop act n a w).1 ≠ none → k = n) := by
  intro n
  induction n with
  | zero =>
    intro a w
    exact ⟨0, le_refl 0, fun h => absurd h (by decide), by simp [tryLoop], rfl, rfl,
      fun i h => absurd h (by omega), by simp [tryLoop], fun _ => rfl⟩
  | succ n ih =>
    intro a w
    cases h0 : (w.env w.trace.length).err with
    | none =>
      refine ⟨1, by omega, fun _ => le_refl 1, ?_, ?_, ?_, fun i h => absurd h (by omega), ?_, ?_⟩
      all_goals simp [tryLoop, hact, run, h0, List.range_succ_eq_map]
    | some e =>
      by_cases hn : n = 0
      · subst hn
        refine ⟨1, le_refl 1, fun _ => le_refl 1, ?_, ?_, ?_, fun i h => absurd h (by omega),
          ?_, ?_⟩
        all_goals simp [tryLoop, hact, run, h0, List.range_succ_eq_map]
      · obtain ⟨k, hk, hk1, htr, henv, hcalls, hfail, hres, hlast⟩ :=
          ih (a + 1) (perform (Op.run c) w).2
        have hstep : tryLoop act (n + 1) a w = tryLoop act n (a + 1) (perform (Op.run c) w).2 := by
          simp [tryLoop, hact, run, h0, hn]
        rw [hstep]
        simp only [perform_trace, perform_env, perform_calls, List.length_append,
          List.length_singleton] at htr henv hcalls hfail hres hlast
        refine ⟨k + 1, by omega, fun _ => by omega, ?_, henv, hcalls, ?_, ?_, ?_⟩
        · rw [htr, List.range_succ_eq_map]
          simp [List.map_map, Function.comp_def, Nat.add_assoc, Nat.add_comm 1]
        · intro i hi
          cases i with
          | zero => simp [h0]
          | succ j =>
            have := hfail j (by omega)
            rwa [Nat.add_assoc, Nat.add_comm 1] at this
        · rw [hres]
          have hkpos : 1 ≤ k := hk1 (by omega)
          have : w.trace.length + 1 + (k - 1) = w.trace.length + (k + 1 - 1) := by omega
          simp [this, show k ≠ 0 by omega]
        · intro h
          have := hlast h
          omega

/-- The retry loop around one command, in terms of operations: `k` runs of the
command, `1 ≤ k ≤ n`, every run but the last one failed, the result is the
error of the last run, and a failure means all `n` runs were used. -/
theorem Try_run (c : Cmd) (act : Nat → World → Option GoError × World)
    (hact : ∀ a w, act a w = run c w) (n : Nat) (hn : 1 ≤ n) (w : World) :
    ∃ k, 1 ≤ k ∧ k ≤ n ∧
      opsSince w (Try n act w).2 = List.replicate k (Op.run c) ∧
      repliesSince w (Try n act w).2 =
        (List.range k).map (fun i => w.env (w.trace.length + i)) ∧
      (Try n act w).2.env = w.env ∧
      (Try n act w).2.calls = w.calls ∧
      (Try n act w).2.trace.length = w.trace.length + k ∧
      (∀ i, i + 1 < k → (w.env (w.trace.length + i)).err ≠ none) ∧
      (Try n act w).1 = (w.env (w.trace.length + (k - 1))).err ∧
      ((Try n act w).1 ≠ none → k = n) := by
  obtain ⟨k, hk, hk1, htr, henv, hcalls, hfail, hres, hlast⟩ := tryLoop_run c act hact n 0 w
  have hkpos : 1 ≤ k := hk1 hn
  change ∃ k, 1 ≤ k ∧ k ≤ n ∧
      opsSince w (tryLoop act n 0 w).2 = List.replicate k (Op.run c) ∧
      repliesSince w (tryLoop act n 0 w).2 =
        (List.range k).map (fun i => w.env (w.trace.length + i)) ∧
      (tryLoop act n 0 w).2.env = w.env ∧
      (tryLoop act n 0 w).2.calls = w.calls ∧
      (tryLoop act n 0 w).2.trace.length = w.trace.length + k ∧
      (∀ i, i + 1 < k → (w.env (w.trace.length + i)).err ≠ none) ∧
      (tryLoop act n 0 w).1 = (w.env (w.trace.length + (k - 1))).err ∧
      ((tryLoop act n 0 w).1 ≠ none → k = n)
  refine ⟨k, hkpos, hk, ?_, ?_, henv, hcalls, ?_, hfail, ?_, hlast⟩
  · rw [opsSince_append w _ _ htr]
    simp [List.map_map, Function.comp_def]
  · unfold repliesSince
    rw [htr]
    simp [List.map_map, Function.comp_def]
  · rw [htr]
    simp
  · rw [hres]
    simp [show k ≠ 0 by omega]

namespace Main

/-- C5: let `N ≥ 1` be the retry count.  In every environment `runWithRetry`
runs the command `k` times with `1 ≤ k ≤ N`, every run but the last one failed
(the command is never run again after a success), it returns the error of the
last run, and it returns an error only after `N` runs.  So a command failing
`N - 1` times and then succeeding gives no error after `N` runs, and a command
failing every time gives an error after exactly `N` runs.  Which errors were
returned does not matter: two environments that fail at the same runs give the
same operations and the same success or failure. -/
theorem runWithRetry_attempts (N : Nat) (hN : 1 ≤ N) (f : Unit → Cmd) (w : World) :
    let res := runWithRetry N f w
    let L := w.trace.length
    ((∀ i, i + 1 < N → (w.env (L + i)).err ≠ none) → (w.env (L + (N - 1))).err = none →
      res.1 = none ∧ opsSince w res.2 = List.replicate N (Op.run (f ()))) ∧
    ((∀ i, i < N → (w.env (L + i)).err ≠ none) →
      res.1 ≠ none ∧ res.1 = (w.env (L + (N - 1))).err ∧
      opsSince w res.2 = List.replicate N (Op.run (f ()))) ∧
    (∃ k, 1 ≤ k ∧ k ≤ N ∧
      opsSince w res.2 = List.replicate k (Op.run (f ())) ∧
      repliesSince w res.2 = (List.range k).map (fun i => w.env (L + i)) ∧
      (∀ i, i + 1 < k → (w.env (L + i)).err ≠ none) ∧
      res.1 = (w.env (L + (k - 1))).err ∧
      (res.1 ≠ none → k = N)) ∧
    (∀ w2 : World, w2.trace.length = L →
      (∀ i, (w2.env i).err = none ↔ (w.env i).err = none) →
      opsSince w2 (runWithRetry N f w2).2 = opsSince w res.2 ∧
      ((runWithRetry N f w2).1 = none ↔ res.1 = none)) := by
  have hact : ∀ (a : Nat) (w : World),
      (fun (_attempt : Nat) (w1 : World) =>
        match run (f ()) w1 with
        | (err, w2) => (err, w2)) a w = run (f ()) w := fun _ _ => rfl
  obtain ⟨k, hk1, hkN, hops, hreps, -, -, -, hfail, hres, hlast⟩ :=
    Try_run (f ()) _ hact N hN w
  have hnone : k < N → (w.env (w.trace.length + (k - 1))).err = none := by
    intro hlt
    by_contra hne
    rw [← hres] at hne
    have := hlast hne
    omega
  refine ⟨?_, ?_, ⟨k, hk1, hkN, hops, hreps, hfail, hres, hlast⟩, ?_⟩
  · intro hf hs
    have hk : k = N := by
      by_contra hne
      exact hf (k - 1) (by omega) (hnone (by omega))
    subst hk
    exact ⟨hres.trans hs, hops⟩
  · intro hf
    have hk : k = N := by
      by_contra hne
      exact hf (k - 1) (by omega) (hnone (by omega))
    subst hk
    refine ⟨?_, hres, hops⟩
    show (runWithRetry k f w).1 ≠ none
    unfold runWithRetry
    rw [hres]
    exact hf (k - 1) (by omega)
  · intro w2 hlen hagree
    obtain ⟨k2, hk1', hkN', hops', -, -, -, -, hfail', hres', hlast'⟩ :=
      Try_run (f ()) _ hact N hN w2
    have hnone' : k2 < N → (w2.env (w2.trace.length + (k2 - 1))).err = none := by
      intro hlt
      by_contra hne
      rw [← hres'] at hne
      have := hlast' hne
      omega
    rw [hlen] at hfail' hres' hnone'
    have hkk : k2 = k := by
      rcases Nat.lt_trichotomy k2 k with h | h | h
      · exact absurd ((hagree _).1 (hnone' (by omega))) (hfail (k2 - 1) (by omega))
      · exact h
      · exact absurd ((hagree _).2 (hnone (by omega))) (hfail' (k - 1) (by omega))
    subst hkk
    refine ⟨?_, ?_⟩
    · show opsSince w2 (runWithRetry N f w2).2 = opsSince w (runWithRetry N f w).2
      unfold runWithRetry
      rw [hops', hops]
    · show (runWithRetry N f w2).1 = none ↔ (runWithRetry N f w).1 = none
      unfold runWithRetry
      rw [hres', hres]
      exact hagree _

/-- Witness for C5: with three attempts, a fetch that fails twice and then
succeeds gives no error after exactly three runs. -/
theorem runWithRetry_attempts_witness :
    (runWithRetry 3 (fun _ => Cmd.fetch ["--unshallow"]) (World.start (envFailAt [0, 1]))).1
        = none ∧
      opsSince (World.start (envFailAt [0, 1]))
        (runWithRetry 3 (fun _ => Cmd.fetch ["--unshallow"])
          (World.start (envFailAt [0, 1]))).2 =
        List.replicate 3 (Op.run (Cmd.fetch ["--unshallow"])) :=
  (runWithRetry_attempts 3 (by decide) (fun _ => Cmd.fetch ["--unshallow"])
    (World.start (envFailAt [0, 1]))).1
    (fun i hi => by
      have h : i = 0 ∨ i = 1 := by omega
      rcases h with h | h <;> subst h <;> decide)
    (by decide)

theorem runWithRetry_spec (n : Nat) (hn : 1 ≤ n) (f : Unit → Cmd) (w : World) :
    ∃ k, 1 ≤ k ∧ k ≤ n ∧
      opsSince w (runWithRetry n f w).2 = List.replicate k (Op.run (f ())) ∧
      repliesSince w (runWithRetry n f w).2 =
        (List.range k).map (fun i => w.env (w.trace.length + i)) ∧
      (runWithRetry n f w).2.env = w.env ∧
      (runWithRetry n f w).2.calls = w.calls ∧
      (runWithRetry n f w).2.trace.length = w.trace.length + k ∧
      (∀ i, i + 1 < k → (w.env (w.trace.length + i)).err ≠ none) ∧
      (runWithRetry n f w).1 = (w.env (w.trace.length + (k - 1))).err ∧
      ((runWithRetry n f w).1 ≠ none → k = n) :=
  Try_run (f ()) _ (fun _ _ => rfl) n hn w

theorem TrimSuffix_append (p suffix : String) : TrimSuffix (p ++ suffix) suffix = p := by
  unfold TrimSuffix
  have h : (p ++ suffix).data = p.data ++ suffix.data := rfl
  rw [h, if_pos (by simp)]
  simp

theorem TrimSuffix_of_not_suffix (s suffix : String)
    (h : ¬ suffix.data <:+ s.data) : TrimSuffix s suffix = s := by
  unfold TrimSuffix
  rw [if_neg (by simpa using h)]

@[simp] theorem enter_trace (fn : Fn) (b : Bool) (w : World) :
    (enter fn b w).trace = w.trace := rfl

@[simp] theorem enter_env (fn : Fn) (b : Bool) (w : World) : (enter fn b w).env = w.env := rfl

@[simp] theorem enter_calls (fn : Fn) (b : Bool) (w : World) :
    (enter fn b w).calls = w.calls ++ [(fn, b)] := rfl

@[simp] theorem opsSince_enter (fn : Fn) (b : Bool) (w w2 : World) :
    opsSince (enter fn b w) w2 = opsSince w w2 := rfl

/-- C3: when `PullRequestMergeBranch` is not empty (and the retry count is at
least 1), for both values of the fallback flag and in every environment,
`autoMerge` returns after: `k ≥ 1` runs (each but the last failed) of
`fetch origin PullRequestMergeBranch:branch`, where `branch` is
`PullRequestMergeBranch` without one trailing `/merge`, and, only when the last
of these runs succeeded, one `checkout branch`.  Nothing else is performed: no
`getDiffFile`, no apply, no merge, and no call of `manualMerge`. -/
theorem autoMerge_merge_branch_path (retryCount : Nat) (hN : 1 ≤ retryCount)
    (configs : Configs) (hbranch : configs.PullRequestMergeBranch ≠ "")
    (fallback : Bool) (fuel : Nat) (w : World) :
    let branch := TrimSuffix configs.PullRequestMergeBranch "/merge"
    let fetchOp :=
      Op.run (Cmd.fetch ["origin", configs.PullRequestMergeBranch ++ ":" ++ branch])
    let start := w.trace.length
    (∀ p, configs.PullRequestMergeBranch = p ++ "/merge" → branch = p) ∧
    (¬ "/merge".data <:+ configs.PullRequestMergeBranch.data →
      branch = configs.PullRequestMergeBranch) ∧
    ∃ res k, autoMerge retryCount configs (fuel + 1) fallback w = some res ∧
      res.2.calls = w.calls ++ [(Fn.autoMerge, fallback)] ∧
      1 ≤ k ∧
      (∀ i, i + 1 < k → (w.env (start + i)).err ≠ none) ∧
      ((w.env (start + (k - 1))).err ≠ none →
        res.1 ≠ none ∧ opsSince w res.2 = List.replicate k fetchOp) ∧
      ((w.env (start + (k - 1))).err = none →
        opsSince w res.2 = List.replicate k fetchOp ++ [Op.run (Cmd.checkout branch)] ∧
        (res.1 = none ↔ (w.env (start + k)).err = none)) := by
  refine ⟨fun p hp => by rw [hp]; exact TrimSuffix_append _ _,
    fun h => TrimSuffix_of_not_suffix _ _ h, ?_⟩
  obtain ⟨k, hk1, -, hops, -, henv, hcalls, hlen, hfail, hres, -⟩ :=
    runWithRetry_spec retryCount hN
      (fun _ => Cmd.fetch ["origin", configs.PullRequestMergeBranch ++ ":" ++
        TrimSuffix configs.PullRequestMergeBranch "/merge"])
      (enter Fn.autoMerge fallback w)
  simp only [enter_trace, enter_env, enter_calls, opsSince_enter]
    at hops henv hcalls hlen hfail hres
  simp only [autoMerge, hbranch, ne_eq, not_false_eq_true, if_true]
  rcases hr : runWithRetry retryCount
      (fun _ => Cmd.fetch ["origin", configs.PullRequestMergeBranch ++ ":" ++
        TrimSuffix configs.PullRequestMergeBranch "/merge"])
      (enter Fn.autoMerge fallback w) with ⟨_ | e, w1⟩
  · rw [hr] at hops henv hcalls hlen hres
    simp only at hops henv hcalls hlen hres
    simp only [run, perform_reply]
    have hle : w.trace.length ≤ w1.trace.length := by omega
    cases hc : (w1.env w1.trace.length).err with
    | none =>
      refine ⟨_, k, rfl, hcalls, hk1, hfail, fun h => absurd hres.symm h, fun _ => ?_⟩
      rw [henv, hlen] at hc
      exact ⟨by rw [opsSince_perform _ _ _ hle, hops], by simp [hc]⟩
    | some e =>
      refine ⟨_, k, rfl, hcalls, hk1, hfail, fun h => absurd hres.symm h, fun _ => ?_⟩
      rw [henv, hlen] at hc
      exact ⟨by rw [opsSince_perform _ _ _ hle, hops], by simp [hc]⟩
  · rw [hr] at hops henv hcalls hlen hres
    simp only at hops henv hcalls hlen hres
    refine ⟨_, k, rfl, hcalls, hk1, hfail, fun _ => ⟨by simp, hops⟩, fun h => ?_⟩
    rw [← hres] at h
    cases h

/-- Witness for C3: the merge ref `refs/pull/1/merge`, every command
succeeding. -/
theorem autoMerge_merge_branch_path_witness :
    ∃ res k, autoMerge 2 prWithMergeRef (0 + 1) true (World.start envOk) = some res ∧
      res.2.calls = (World.start envOk).calls ++ [(Fn.autoMerge, true)] ∧
      1 ≤ k ∧
      (∀ i, i + 1 < k → (envOk ((World.start envOk).trace.length + i)).err ≠ none) ∧
      ((envOk ((World.start envOk).trace.length + (k - 1))).err ≠ none →
        res.1 ≠ none ∧
        opsSince (World.start envOk) res.2 = List.replicate k
          (Op.run (Cmd.fetch ["origin", "refs/pull/1/merge" ++ ":" ++
            TrimSuffix "refs/pull/1/merge" "/merge"]))) ∧
      ((envOk ((World.start envOk).trace.length + (k - 1))).err = none →
        opsSince (World.start envOk) res.2 = List.replicate k
          (Op.run (Cmd.fetch ["origin", "refs/pull/1/merge" ++ ":" ++
            TrimSuffix "refs/pull/1/merge" "/merge"])) ++
          [Op.run (Cmd.checkout (TrimSuffix "refs/pull/1/merge" "/merge"))] ∧
        (res.1 = none ↔ (envOk ((World.start envOk).trace.length + k)).err = none)) :=
  (autoMerge_merge_branch_path 2 (by decide) prWithMergeRef (by decide) true 0
    (World.start envOk)).2.2

theorem runWithRetry_frame (n : Nat) (f : Unit → Cmd) (w : World) :
    ∃ k, opsSince w (runWithRetry n f w).2 = List.replicate k (Op.run (f ())) ∧
      (runWithRetry n f w).2.calls = w.calls ∧
      w.trace.length ≤ (runWithRetry n f w).2.trace.length := by
  obtain ⟨k, -, -, htr, -, hcalls, -, -, -⟩ :=
    tryLoop_run (f ()) (fun (_attempt : Nat) (w1 : World) =>
        match run (f ()) w1 with
        | (err, w2) => (err, w2)) (fun _ _ => rfl) n 0 w
  refine ⟨k, ?_, hcalls, ?_⟩
  · show opsSince w (tryLoop _ n 0 w).2 = _
    rw [opsSince_append w _ _ htr]
    simp [List.map_map, Function.comp_def]
  · show _ ≤ (tryLoop _ n 0 w).2.trace.length
    rw [htr]
    simp

/-- With a merge-branch ref supplied `autoMerge` returns at any positive fuel,
calls nothing and performs no merge. -/
theorem autoMerge_branch_calls (retryCount : Nat) (configs : Configs)
    (hbranch : configs.PullRequestMergeBranch ≠ "") (fallback : Bool) (fuel : Nat)
    (w : World) :
    ∃ res, autoMerge retryCount configs (fuel + 1) fallback w = some res ∧
      autoMerge retryCount configs 1 fallback w = some res ∧
      res.2.calls = w.calls ++ [(Fn.autoMerge, fallback)] ∧
      ∀ op ∈ opsSince w res.2, op.isMerge = false := by
  obtain ⟨k, hops, hcalls, hle⟩ := runWithRetry_frame retryCount
    (fun _ => Cmd.fetch ["origin", configs.PullRequestMergeBranch ++ ":" ++
      TrimSuffix configs.PullRequestMergeBranch "/merge"])
    (enter Fn.autoMerge fallback w)
  simp only [enter_trace, enter_calls, opsSince_enter] at hops hcalls hle
  simp only [autoMerge, hbranch, ne_eq, not_false_eq_true, if_true]
  rcases hr : runWithRetry retryCount
      (fun _ => Cmd.fetch ["origin", configs.PullRequestMergeBranch ++ ":" ++
        TrimSuffix configs.PullRequestMergeBranch "/merge"])
      (enter Fn.autoMerge fallback w) with ⟨_ | e, w1⟩
  · rw [hr] at hops hcalls hle
    simp only at hops hcalls hle
    simp only [run, perform_reply]
    cases hc : (w1.env w1.trace.length).err with
    | none =>
      refine ⟨_, rfl, rfl, hcalls, ?_⟩
      simp only [opsSince_perform _ _ _ hle, hops]
      intro op hop
      simp only [List.mem_append, List.mem_replicate, List.mem_singleton] at hop
      rcases hop with ⟨_, h⟩ | h <;> subst h <;> rfl
    | some e =>
      refine ⟨_, rfl, rfl, hcalls, ?_⟩
      simp only [opsSince_perform _ _ _ hle, hops]
      intro op hop
      simp only [List.mem_append, List.mem_replicate, List.mem_singleton] at hop
      rcases hop with ⟨_, h⟩ | h <;> subst h <;> rfl
  · rw [hr] at hops hcalls
    simp only at hops hcalls
    refine ⟨_, rfl, rfl, hcalls, ?_⟩
    rw [hops]
    intro op hop
    simp only [List.mem_replicate] at hop
    rw [hop.2]
    rfl

/-- C4, as stated, fails: with the merge ref `refs/pull/1/merge` supplied, its
fetch succeeding at the first run and its checkout failing, `autoMerge(true)`
returns an error right after the checkout and never calls `manualMerge`,
although `manualMerge` run from there succeeds. -/
theorem autoMerge_no_fallback_after_failed_ref_checkout :
    (∃ res, autoMerge 2 prWithMergeRef 2 true (World.start (envFailAt [1])) = some res ∧
      res.1 = some (GoError.plain "checkout failed (main), error: exit status 1") ∧
      res.2.calls = [(Fn.autoMerge, true)] ∧
      opsSince (World.start (envFailAt [1])) res.2 =
        [Op.run (Cmd.fetch ["origin", "refs/pull/1/merge:refs/pull/1"]),
         Op.run (Cmd.checkout "refs/pull/1")] ∧
      ∃ mres, manualMerge 2 prWithMergeRef 1 false res.2 = some mres ∧ mres.1 = none) := by
  refine ⟨_, rfl, by decide, by decide, by decide, _, rfl, by decide⟩

/-- C4, amended: when no merge-branch ref is supplied and `getDiffFile` returns
an error, `autoMerge(true)` calls `manualMerge(false)` in the world after the
download, ends in the world `manualMerge` leaves and returns no error exactly
when `manualMerge` returns none; `autoMerge(false)` returns the error "there is
no Pull Request branch and can't download diff file" having performed nothing
but the download.  When a merge-branch ref is supplied, `autoMerge`, for both
values of the flag, never calls `manualMerge` and performs no merge; an error of
the retried fetch is returned, wrapped, in the world the fetch left; after a
successful fetch an error of the checkout is returned, wrapped, in the world the
checkout left; and when both succeed no error is returned. -/
theorem autoMerge_fallback_to_manualMerge (retryCount : Nat) (configs : Configs)
    (fuel : Nat) (w : World) :
    (configs.PullRequestMergeBranch = "" → (w.env w.trace.length).err ≠ none →
      (∃ res mres,
        autoMerge retryCount configs (fuel + 2) true w = some res ∧
        manualMerge retryCount configs (fuel + 1) false
          (getDiffFile configs (enter Fn.autoMerge true w)).2 = some mres ∧
        res.2 = mres.2 ∧
        (res.1 = none ↔ mres.1 = none) ∧
        res.2.calls = w.calls ++ [(Fn.autoMerge, true), (Fn.manualMerge, false)]) ∧
      (∃ res,
        autoMerge retryCount configs (fuel + 1) false w = some res ∧
        res.1 = some (GoError.plain
          "there is no Pull Request branch and can't download diff file") ∧
        res.2.calls = w.calls ++ [(Fn.autoMerge, false)] ∧
        opsSince w res.2 =
          [Op.getDiffFile (configs.BuildURL ++ "/diff.txt?api_token=" ++ configs.BuildAPIToken)
            (configs.PullRequestID ++ ".diff")])) ∧
    (configs.PullRequestMergeBranch ≠ "" → ∀ fallback : Bool,
      let branch := TrimSuffix configs.PullRequestMergeBranch "/merge"
      let fetched := runWithRetry retryCount
        (fun _ => Cmd.fetch ["origin", configs.PullRequestMergeBranch ++ ":" ++ branch])
        (enter Fn.autoMerge fallback w)
      let checked := run (Cmd.checkout branch) fetched.2
      ∃ res, autoMerge retryCount configs (fuel + 1) fallback w = some res ∧
        res.2.calls = w.calls ++ [(Fn.autoMerge, fallback)] ∧
        (∀ op ∈ opsSince w res.2, op.isMerge = false) ∧
        (∀ e, fetched.1 = some e →
          res = (some (GoError.plain ("fetch Pull Request branch failed (" ++
            configs.PullRequestMergeBranch ++ "), error: " ++ e.Error)), fetched.2)) ∧
        (∀ e, fetched.1 = none → checked.1 = some e →
          res = (some (GoError.plain ("checkout failed (" ++ configs.BranchDest ++
            "), error: " ++ e.Error)), checked.2)) ∧
        (fetched.1 = none → checked.1 = none → res = (none, checked.2))) := by
  refine ⟨fun hno hdiff => ⟨?_, ?_⟩, fun hbranch fallback => ?_⟩
  · obtain ⟨e, he⟩ := Option.ne_none_iff_exists'.1 hdiff
    simp only [autoMerge, manualMerge, getDiffFile, hno, run, perform_reply, perform_trace,
      perform_env, enter_trace, enter_env, he, ne_eq, not_true_eq_false, if_false, if_true]
    cases h1 : (w.env (w.trace.length + 1)).err <;>
      cases h2 : (w.env (w.trace.length + 1 + 1)).err <;>
      simp [h1, h2, enter, perform]
  · obtain ⟨e, he⟩ := Option.ne_none_iff_exists'.1 hdiff
    simp [autoMerge, getDiffFile, hno, he, opsSince, enter]
  · obtain ⟨res, h1, -, h2, h3⟩ :=
      autoMerge_branch_calls retryCount configs hbranch fallback fuel w
    refine ⟨res, h1, h2, h3, ?_, ?_, ?_⟩
    all_goals
      simp only [autoMerge, hbranch, ne_eq, not_false_eq_true, if_true] at h1
    · intro e he
      rcases hr : runWithRetry retryCount
          (fun _ => Cmd.fetch ["origin", configs.PullRequestMergeBranch ++ ":" ++
            TrimSuffix configs.PullRequestMergeBranch "/merge"])
          (enter Fn.autoMerge fallback w) with ⟨r, w1⟩
      rw [hr] at h1 he
      simp only at he
      subst he
      simp only [Option.some.injEq] at h1
      exact h1.symm
    · intro e hf hc
      rcases hr : runWithRetry retryCount
          (fun _ => Cmd.fetch ["origin", configs.PullRequestMergeBranch ++ ":" ++
            TrimSuffix configs.PullRequestMergeBranch "/merge"])
          (enter Fn.autoMerge fallback w) with ⟨r, w1⟩
      rw [hr] at h1 hf hc
      simp only at hf hc
      subst hf
      simp only at h1
      rcases hk : run (Cmd.checkout (TrimSuffix configs.PullRequestMergeBranch "/merge")) w1
        with ⟨r2, w2⟩
      rw [hk] at h1 hc
      simp only at hc
      subst hc
      simp only [Option.some.injEq] at h1
      exact h1.symm
    · intro hf hc
      rcases hr : runWithRetry retryCount
          (fun _ => Cmd.fetch ["origin", configs.PullRequestMergeBranch ++ ":" ++
            TrimSuffix configs.PullRequestMergeBranch "/merge"])
          (enter Fn.autoMerge fallback w) with ⟨r, w1⟩
      rw [hr] at h1 hf hc
      simp only at hf hc
      subst hf
      simp only at h1
      rcases hk : run (Cmd.checkout (TrimSuffix configs.PullRequestMergeBranch "/merge")) w1
        with ⟨r2, w2⟩
      rw [hk] at h1 hc
      simp only at hc
      subst hc
      simp only [Option.some.injEq] at h1
      exact h1.symm

/-- Witness for C4: no merge ref, the download fails, the manual merge
succeeds. -/
theorem autoMerge_fallback_to_manualMerge_witness :
    ∃ res mres,
      autoMerge 2 prWithoutMergeRef (0 + 2) true (World.start (envFailAt [0])) = some res ∧
      manualMerge 2 prWithoutMergeRef (0 + 1) false
        (getDiffFile prWithoutMergeRef
          (enter Fn.autoMerge true (World.start (envFailAt [0])))).2 = some mres ∧
      res.2 = mres.2 ∧
      (res.1 = none ↔ mres.1 = none) ∧
      res.2.calls = (World.start (envFailAt [0])).calls ++
        [(Fn.autoMerge, true), (Fn.manualMerge, false)] :=
  ((autoMerge_fallback_to_manualMerge 2 prWithoutMergeRef 0 (World.start (envFailAt [0]))).1
    rfl (by decide)).1

/-! ## Depth of the mutual fallback -/

theorem manualMerge_false (retryCount : Nat) (configs : Configs) (fuel : Nat) (w : World) :
    ∃ res, manualMerge retryCount configs (fuel + 1) false w = some res ∧
      manualMerge retryCount configs 1 false w = some res ∧
      res.2.calls = w.calls ++ [(Fn.manualMerge, false)] := by
  simp only [manualMerge, run, perform_reply, perform_trace, perform_env, enter_trace,
    enter_env]
  cases h0 : (w.env w.trace.length).err <;>
    cases h1 : (w.env (w.trace.length + 1)).err <;> simp [h0, h1, enter, perform]

theorem autoMerge_false (retryCount : Nat) (configs : Configs) (fuel : Nat) (w : World) :
    ∃ res, autoMerge retryCount configs (fuel + 1) false w = some res ∧
      autoMerge retryCount configs 1 false w = some res ∧
      res.2.calls = w.calls ++ [(Fn.autoMerge, false)] := by
  by_cases hb : configs.PullRequestMergeBranch = ""
  · simp only [autoMerge, getDiffFile, run, perform_reply, perform_trace, perform_env,
      enter_trace, enter_env, hb, ne_eq, not_true_eq_false, if_false]
    cases h0 : (w.env w.trace.length).err <;>
      cases h1 : (w.env (w.trace.length + 1)).err <;>
      cases h2 : (w.env (w.trace.length + 1 + 1)).err <;> simp [h0, h1, h2, enter, perform]
  · obtain ⟨res, h1, h2, h3, -⟩ := autoMerge_branch_calls retryCount configs hb false fuel w
    exact ⟨res, h1, h2, h3⟩

/-- C10: for every configuration, every environment and both values of the
flag, `autoMerge` and `manualMerge` return, and a fuel of 2 is enough (more fuel
changes nothing).  The calls made are the function itself alone, or, only when
the flag is true, the function itself followed by one call of the other function
with the flag false: at most two calls, no function twice, and with the flag
false no call of the other function. -/
theorem fallback_depth_at_most_two (retryCount : Nat) (configs : Configs) (fuel : Nat)
    (fallback : Bool) (w : World) :
    (∃ res, autoMerge retryCount configs (fuel + 2) fallback w = some res ∧
      autoMerge retryCount configs 2 fallback w = some res ∧
      (res.2.calls = w.calls ++ [(Fn.autoMerge, fallback)] ∨
        (fallback = true ∧
          res.2.calls = w.calls ++ [(Fn.autoMerge, true), (Fn.manualMerge, false)]))) ∧
    (∃ res, manualMerge retryCount configs (fuel + 2) fallback w = some res ∧
      manualMerge retryCount configs 2 fallback w = some res ∧
      (res.2.calls = w.calls ++ [(Fn.manualMerge, fallback)] ∨
        (fallback = true ∧
          res.2.calls = w.calls ++ [(Fn.manualMerge, true), (Fn.autoMerge, false)]))) := by
  constructor
  · cases fallback with
    | false =>
      obtain ⟨res, h1, h2, h3⟩ := autoMerge_false retryCount configs (fuel + 1) w
      obtain ⟨res2, h4, h5, -⟩ := autoMerge_false retryCount configs 1 w
      rw [h2] at h5
      exact ⟨res, h1, h5 ▸ h4, Or.inl h3⟩
    | true =>
      by_cases hb : configs.PullRequestMergeBranch = ""
      · simp only [autoMerge, getDiffFile, run, perform_reply, perform_trace, perform_env,
          enter_trace, enter_env, hb, ne_eq, not_true_eq_false, if_false, if_true]
        cases h0 : (w.env w.trace.length).err with
        | none =>
          cases h1 : (w.env (w.trace.length + 1)).err <;>
            cases h2 : (w.env (w.trace.length + 1 + 1)).err <;>
            simp [h0, h1, h2, enter, perform]
        | some e =>
          simp only [h0]
          obtain ⟨⟨r, w2⟩, hm1, hm2, hm3⟩ := manualMerge_false retryCount configs fuel
            (perform (Op.getDiffFile
              (configs.BuildURL ++ "/diff.txt?api_token=" ++ configs.BuildAPIToken)
              (configs.PullRequestID ++ ".diff")) (enter Fn.autoMerge true w)).2
          rw [hm1, hm2]
          simp only [perform_calls, enter_calls] at hm3
          cases r <;> exact ⟨_, rfl, rfl, Or.inr ⟨trivial, by simp [hm3]⟩⟩
      · obtain ⟨res, h1, h2, h3, -⟩ :=
          autoMerge_branch_calls retryCount configs hb true (fuel + 1) w
        obtain ⟨res2, h4, h5, -⟩ := autoMerge_branch_calls retryCount configs hb true 1 w
        rw [h2] at h5
        exact ⟨res, h1, h5 ▸ h4, Or.inl h3⟩
  · cases fallback with
    | false =>
      obtain ⟨res, h1, h2, h3⟩ := manualMerge_false retryCount configs (fuel + 1) w
      obtain ⟨res2, h4, h5, -⟩ := manualMerge_false retryCount configs 1 w
      rw [h2] at h5
      exact ⟨res, h1, h5 ▸ h4, Or.inl h3⟩
    | true =>
      simp only [manualMerge, run, perform_reply, perform_trace, perform_env, enter_trace,
        enter_env, if_true]
      cases h0 : (w.env w.trace.length).err with
      | some e => simp [h0, enter, perform]
      | none =>
        cases h1 : (w.env (w.trace.length + 1)).err with
        | none => simp [h0, h1, enter, perform]
        | some e =>
          simp only [h0, h1, perform_reply, perform_trace, perform_env, enter_trace,
            enter_env, List.length_append, List.length_singleton]
          obtain ⟨⟨r, w2⟩, hm1, hm2, hm3⟩ := autoMerge_false retryCount configs fuel
            (perform (Op.run (Cmd.merge configs.Commit))
              (perform (Op.run (Cmd.checkout configs.BranchDest))
                (enter Fn.manualMerge true w)).2).2
          rw [hm1, hm2]
          simp only [perform_calls, enter_calls] at hm3
          cases r <;> exact ⟨_, rfl, rfl, Or.inr ⟨trivial, by simp [hm3]⟩⟩

/-- Witness for C10: without a merge ref and with a failing download,
`autoMerge(true)` reaches depth two, calling `manualMerge(false)` once. -/
theorem fallback_depth_at_most_two_witness :
    ∃ res, autoMerge 2 prWithoutMergeRef (5 + 2) true (World.start (envFailAt [0])) = some res ∧
      autoMerge 2 prWithoutMergeRef 2 true (World.start (envFailAt [0])) = some res ∧
      (res.2.calls = (World.start (envFailAt [0])).calls ++ [(Fn.autoMerge, true)] ∨
        (true = true ∧
          res.2.calls = (World.start (envFailAt [0])).calls ++
            [(Fn.autoMerge, true), (Fn.manualMerge, false)])) :=
  (fallback_depth_at_most_two 2 prWithoutMergeRef 5 true (World.start (envFailAt [0]))).1

end Main

end GitClone
